import Mathlib

/-!
Shallow embedding of the xCDN in-memory document model (`src/xcdn/ast.py`).

The Python module defines dataclasses `Document`, `Directive`, `Node`, `Tag`,
`Annotation` and a closed family of value dataclasses (`Null`, `Bool`, `Int`,
`Float`, `DecimalValue`, `String`, `Bytes`, `DateTime`, `Duration`, `Uuid`,
`Array`, `Object`).  Containers hold `Node`s; an `Object` is a Python dict,
which preserves insertion order and keeps a replaced key at its original
position.  Assignment through indexing wraps a non-`Node` argument with
`Node.new`, storing the bare Python payload unconverted; the dynamic value
domain therefore also contains raw Python scalars, modelled by `Raw`.
Python `list` indexing accepts negative indices (`xs[-1]` is the last
element), which `pyListGet`/`pyListSet` reproduce.  Exceptions raised by the
code (`KeyError`, `TypeError`, `IndexError`, `AttributeError`) are modelled
by the abstract error kinds of the specification.
-/

namespace Xcdn

/-- `Tag` dataclass: a bare label. -/
structure Tag where
  name : String
deriving DecidableEq

/-- A raw Python scalar stored unconverted by the auto-wrap path
(`Node.new(value)` keeps the argument as it is; it never converts `5` into
`Int(5)`). -/
inductive Raw : Type where
  | pyNone
  | pyBool (b : Bool)
  | pyInt (n : Int)
  | pyStr (s : String)
deriving DecidableEq

mutual
/-- The dynamic domain of `Node.value`: the twelve value dataclasses of
`ast.py`, plus `raw` for a bare Python scalar that entered through the
auto-wrapping assignment paths. Scalar payloads that Lean cannot carry
directly are represented losslessly enough for the claims: `float` as its
IEEE-754 bit pattern, `decimalValue`/`dateTime`/`duration` as their text,
`uuid` as its 128-bit number, `bytes` as a byte list. -/
inductive Value : Type where
  | null
  | bool (b : Bool)
  | int (n : Int)
  | float (bits : Nat)
  | decimalValue (text : String)
  | string (s : String)
  | bytes (data : List Nat)
  | dateTime (text : String)
  | duration (text : String)
  | uuid (bits : Nat)
  | array (elems : List Node)
  | object (entries : List (String × Node))
  | raw (r : Raw)

/-- `Node` dataclass: tags, annotations and exactly one value. -/
inductive Node : Type where
  | mk (tags : List Tag) (annotations : List Annotation) (value : Value)

/-- `Annotation` dataclass: a name with an argument list of values. -/
inductive Annotation : Type where
  | mk (name : String) (args : List Value)
end

def Node.tags : Node → List Tag
  | .mk t _ _ => t

def Node.annotations : Node → List Annotation
  | .mk _ a _ => a

def Node.value : Node → Value
  | .mk _ _ v => v

/-- `Node.new(value)`: fresh node with empty metadata around the payload. -/
def Node.new (v : Value) : Node := .mk [] [] v

/-- `Node()` with the dataclass defaults: `tags=[]`, `annotations=[]`,
`value=None`. The default of the `value` field in the source is the Python
`None` object, not the `Null()` dataclass instance. -/
def Node.default : Node := .mk [] [] (.raw .pyNone)

/-- `Directive` dataclass. -/
structure Directive where
  name : String
  value : Value

/-- `Document` dataclass: prolog directives plus top-level nodes. -/
structure Document where
  prolog : List Directive
  values : List Node

/-- Abstract error kinds of the specification, standing for the exceptions
the code raises: `TypeError` → `typeMismatch`, `KeyError` → `keyNotFound`,
`IndexError` → `indexOutOfRange`, `AttributeError` →
`unsupportedOperation` (which carries `type(self.value).__name__`). -/
inductive Err : Type where
  | typeMismatch
  | keyNotFound
  | indexOutOfRange
  | invalidKeyType
  | unsupportedOperation (variantName : String)
deriving DecidableEq

/-- `type(v).__name__` for every inhabitant of the dynamic value domain. -/
def Value.typeName : Value → String
  | .null => "Null"
  | .bool _ => "Bool"
  | .int _ => "Int"
  | .float _ => "Float"
  | .decimalValue _ => "DecimalValue"
  | .string _ => "String"
  | .bytes _ => "Bytes"
  | .dateTime _ => "DateTime"
  | .duration _ => "Duration"
  | .uuid _ => "Uuid"
  | .array _ => "Array"
  | .object _ => "Object"
  | .raw .pyNone => "NoneType"
  | .raw (.pyBool _) => "bool"
  | .raw (.pyInt _) => "int"
  | .raw (.pyStr _) => "str"

/-- The argument of an assignment path: either an already constructed `Node`
or any other Python value (the `isinstance(value, Node)` test). -/
inductive Payload : Type where
  | node (n : Node)
  | val (v : Value)

/-- `value if isinstance(value, Node) else Node.new(value)`. -/
def wrapPayload : Payload → Node
  | .node n => n
  | .val v => Node.new v

/-- Python `list.__getitem__` semantics: a negative index counts from the
end; out-of-range access raises `IndexError`. The inner `none` arm is
unreachable because the guard already established the bound. -/
def pyListGet (xs : List Node) (i : Int) : Except Err Node :=
  let j := if i < 0 then i + xs.length else i
  if 0 ≤ j ∧ j.toNat < xs.length then
    match xs.get? j.toNat with
    | some nd => .ok nd
    | none => .error .indexOutOfRange
  else .error .indexOutOfRange

/-- Python `list.__setitem__` semantics, same index resolution. -/
def pyListSet (xs : List Node) (i : Int) (n : Node) : Except Err (List Node) :=
  let j := if i < 0 then i + xs.length else i
  if 0 ≤ j ∧ j.toNat < xs.length then .ok (xs.set j.toNat n)
  else .error .indexOutOfRange

/-- Lookup of the first entry with the given key: Python dict lookup on the
insertion-ordered entry list. -/
def lookupEntry : List (String × Node) → String → Option Node
  | [], _ => none
  | (k', v) :: rest, k => if k' = k then some v else lookupEntry rest k

/-- Python dict assignment on the insertion-ordered entry list: an existing
key keeps its position and gets the new node; a new key is appended. -/
def setEntry : List (String × Node) → String → Node → List (String × Node)
  | [], k, v => [(k, v)]
  | (k', v') :: rest, k, v =>
      if k' = k then (k', v) :: rest else (k', v') :: setEntry rest k v

/-- `Object.__getitem__`: strict lookup, `KeyError` when absent. -/
def objectGetItem (es : List (String × Node)) (k : String) : Except Err Node :=
  match lookupEntry es k with
  | some n => .ok n
  | none => .error .keyNotFound

/-- `Object.__setitem__`: wraps a non-`Node` argument, then dict assignment. -/
def objectSet (es : List (String × Node)) (k : String) (p : Payload) :
    List (String × Node) :=
  setEntry es k (wrapPayload p)

/-- `Object.__contains__`. -/
def objectContains (es : List (String × Node)) (k : String) : Bool :=
  (lookupEntry es k).isSome

/-- `Object.get(key, default)`: the entry when present, else the default. -/
def objectGet (es : List (String × Node)) (k : String)
    (default : Option Node) : Option Node :=
  match lookupEntry es k with
  | some n => some n
  | none => default

/-- `Object.keys()`: keys in insertion order. -/
def objectKeys (es : List (String × Node)) : List String :=
  es.map Prod.fst

/-- `Array.__getitem__`: plain Python list indexing on the element list. -/
def arrayGet (elems : List Node) (i : Int) : Except Err Node :=
  pyListGet elems i

/-- `Array.__setitem__`: wraps a non-`Node` argument, then list assignment. -/
def arraySet (elems : List Node) (i : Int) (p : Payload) :
    Except Err (List Node) :=
  pyListSet elems i (wrapPayload p)

/-- `Array.append`: wraps a non-`Node` argument and appends at the end. -/
def arrayAppend (elems : List Node) (p : Payload) : List Node :=
  elems ++ [wrapPayload p]

/-- `Node.get`: delegates when the held value has a `get` attribute, which in
the dynamic domain only `Object` does; otherwise `AttributeError` naming the
value's type. -/
def Node.get (n : Node) (k : String) (default : Option Node) :
    Except Err (Option Node) :=
  match n.value with
  | .object es => .ok (objectGet es k default)
  | v => .error (.unsupportedOperation v.typeName)

/-- `Node.keys`: same delegation policy through `hasattr(value, 'keys')`. -/
def Node.keys (n : Node) : Except Err (List String) :=
  match n.value with
  | .object es => .ok (objectKeys es)
  | v => .error (.unsupportedOperation v.typeName)

/-- `Node.values_iter`: same delegation policy. -/
def Node.values_iter (n : Node) : Except Err (List Node) :=
  match n.value with
  | .object es => .ok (es.map Prod.snd)
  | v => .error (.unsupportedOperation v.typeName)

/-- `Node.items`: same delegation policy. -/
def Node.items (n : Node) : Except Err (List (String × Node)) :=
  match n.value with
  | .object es => .ok es
  | v => .error (.unsupportedOperation v.typeName)

/-- `Node.append`: delegates through `hasattr(value, 'append')`, which in the
dynamic domain only `Array` has; the array grows in place. -/
def Node.append (n : Node) (p : Payload) : Except Err Node :=
  match n.value with
  | .array xs => .ok (.mk n.tags n.annotations (.array (arrayAppend xs p)))
  | v => .error (.unsupportedOperation v.typeName)

/-- `Document.__getitem__` with an integer key: list indexing on `values`. -/
def Document.getInt (d : Document) (i : Int) : Except Err Node :=
  pyListGet d.values i

/-- `Document.__getitem__` with a string key: delegates to the first value
when it is an `Object`; every failure raises `KeyError`. -/
def Document.getStr (d : Document) (k : String) : Except Err Node :=
  match d.values with
  | n0 :: _ =>
      match n0.value with
      | .object es => objectGetItem es k
      | _ => .error .keyNotFound
  | [] => .error .keyNotFound

/-- `Document.__setitem__` with an integer key: list assignment on `values`
after the usual wrapping. -/
def Document.setInt (d : Document) (i : Int) (p : Payload) :
    Except Err Document :=
  match pyListSet d.values i (wrapPayload p) with
  | .ok vs => .ok ⟨d.prolog, vs⟩
  | .error e => .error e

/-- `Document.__setitem__` with a string key: when `values` is empty a node
holding an empty `Object` is appended first and the key is set on it; when
the first value is an `Object` the key is set on it; otherwise `TypeError`. -/
def Document.setStr (d : Document) (k : String) (p : Payload) :
    Except Err Document :=
  match d.values with
  | [] => .ok ⟨d.prolog, [Node.mk [] [] (.object (objectSet [] k p))]⟩
  | n0 :: rest =>
      match n0.value with
      | .object es =>
          .ok ⟨d.prolog, Node.mk n0.tags n0.annotations
                 (.object (objectSet es k p)) :: rest⟩
      | _ => .error .typeMismatch

/-- `Document.__contains__`: true only when the first value is an `Object`
containing the key; never raises. -/
def Document.containsKey (d : Document) (k : String) : Bool :=
  match d.values with
  | n0 :: _ =>
      match n0.value with
      | .object es => objectContains es k
      | _ => false
  | [] => false

/-- An `Object` built by successive `set` calls starting from empty. -/
def buildObject (ps : List (String × Payload)) : List (String × Node) :=
  ps.foldl (fun es kp => objectSet es kp.1 kp.2) []

/-! ## Lemmas about the ordered-map operations -/

theorem lookupEntry_setEntry_self (es : List (String × Node)) (k : String)
    (v : Node) : lookupEntry (setEntry es k v) k = some v := by
  induction es with
  | nil => simp [setEntry, lookupEntry]
  | cons e rest ih =>
      obtain ⟨k', v'⟩ := e
      by_cases h : k' = k
      · simp [setEntry, lookupEntry, h]
      · simp [setEntry, lookupEntry, h, ih]

theorem lookupEntry_setEntry_ne (es : List (String × Node)) (k j : String)
    (v : Node) (h : ¬ j = k) :
    lookupEntry (setEntry es k v) j = lookupEntry es j := by
  have hkj : ¬ k = j := fun q => h q.symm
  induction es with
  | nil => simp [setEntry, lookupEntry, hkj]
  | cons e rest ih =>
      obtain ⟨k', v'⟩ := e
      by_cases hk : k' = k
      · subst hk
        simp [setEntry, lookupEntry, hkj]
      · by_cases hj : k' = j
        · subst hj
          simp [setEntry, lookupEntry, hk]
        · simp [setEntry, lookupEntry, hk, hj, ih]

theorem setEntry_keys_of_mem (es : List (String × Node)) (k : String)
    (v : Node) (h : k ∈ objectKeys es) :
    objectKeys (setEntry es k v) = objectKeys es := by
  induction es with
  | nil => simp [objectKeys] at h
  | cons e rest ih =>
      obtain ⟨k', v'⟩ := e
      by_cases hk : k' = k
      · simp [setEntry, objectKeys, hk]
      · have hmem : k ∈ objectKeys rest := by
          simp only [objectKeys, List.map_cons, List.mem_cons] at h
          rcases h with h | h
          · exact absurd h.symm hk
          · simpa [objectKeys] using h
        have hrec := ih hmem
        simp only [setEntry, if_neg hk, objectKeys, List.map_cons]
        simp only [objectKeys] at hrec
        rw [hrec]

theorem setEntry_of_not_mem (es : List (String × Node)) (k : String)
    (v : Node) (h : ¬ k ∈ objectKeys es) :
    setEntry es k v = es ++ [(k, v)] := by
  induction es with
  | nil => simp [setEntry]
  | cons e rest ih =>
      obtain ⟨k', v'⟩ := e
      simp only [objectKeys, List.map_cons, List.mem_cons] at h
      push_neg at h
      have hk : ¬ k' = k := fun q => h.1 q.symm
      have hrest : ¬ k ∈ objectKeys rest := by simpa [objectKeys] using h.2
      simp [setEntry, hk, ih hrest]

theorem keys_setEntry_filter (es : List (String × Node)) (k : String)
    (v : Node) :
    (objectKeys (setEntry es k v)).filter (fun x => x != k)
      = (objectKeys es).filter (fun x => x != k) := by
  by_cases h : k ∈ objectKeys es
  · rw [setEntry_keys_of_mem es k v h]
  · rw [setEntry_of_not_mem es k v h]
    simp [objectKeys]

/-! ## Lemmas about Python list indexing -/

theorem pyListGet_oob (xs : List Node) (i : Int)
    (h : i < -(xs.length : Int) ∨ (xs.length : Int) ≤ i) :
    pyListGet xs i = .error .indexOutOfRange := by
  by_cases hneg : i < 0
  · have hcond : ¬ (0 ≤ i + (xs.length : Int) ∧
        (i + (xs.length : Int)).toNat < xs.length) := by omega
    simp [pyListGet, hneg, hcond]
  · have hcond : ¬ ((0 : Int) ≤ i ∧ i.toNat < xs.length) := by omega
    simp [pyListGet, hneg, hcond]

theorem pyListSet_oob (xs : List Node) (i : Int) (n : Node)
    (h : i < -(xs.length : Int) ∨ (xs.length : Int) ≤ i) :
    pyListSet xs i n = .error .indexOutOfRange := by
  by_cases hneg : i < 0
  · have hcond : ¬ (0 ≤ i + (xs.length : Int) ∧
        (i + (xs.length : Int)).toNat < xs.length) := by omega
    simp [pyListSet, hneg, hcond]
  · have hcond : ¬ ((0 : Int) ≤ i ∧ i.toNat < xs.length) := by omega
    simp [pyListSet, hneg, hcond]

theorem pyListGet_inb (xs : List Node) (i : Int)
    (h : -(xs.length : Int) ≤ i ∧ i < (xs.length : Int)) :
    ∃ nd, pyListGet xs i = .ok nd := by
  by_cases hneg : i < 0
  · have hcond : 0 ≤ i + (xs.length : Int) ∧
        (i + (xs.length : Int)).toNat < xs.length := by omega
    have hnd := List.get?_eq_get hcond.2
    exact ⟨xs.get ⟨(i + (xs.length : Int)).toNat, hcond.2⟩,
      by simp [pyListGet, hneg, hcond, hnd]⟩
  · have hcond : (0 : Int) ≤ i ∧ i.toNat < xs.length := by omega
    have hnd := List.get?_eq_get hcond.2
    exact ⟨xs.get ⟨i.toNat, hcond.2⟩, by simp [pyListGet, hneg, hcond, hnd]⟩

theorem pyListSet_inb (xs : List Node) (i : Int) (n : Node)
    (h : -(xs.length : Int) ≤ i ∧ i < (xs.length : Int)) :
    ∃ ys, pyListSet xs i n = .ok ys := by
  by_cases hneg : i < 0
  · have hcond : 0 ≤ i + (xs.length : Int) ∧
        (i + (xs.length : Int)).toNat < xs.length := by omega
    exact ⟨xs.set (i + (xs.length : Int)).toNat n,
      by simp [pyListSet, hneg, hcond]⟩
  · have hcond : (0 : Int) ≤ i ∧ i.toNat < xs.length := by omega
    exact ⟨xs.set i.toNat n, by simp [pyListSet, hneg, hcond]⟩

theorem pyListSet_nonneg (xs : List Node) (i : Int) (n : Node)
    (h0 : 0 ≤ i) (h1 : i < (xs.length : Int)) :
    pyListSet xs i n = .ok (xs.set i.toNat n) := by
  have hneg : ¬ i < 0 := by omega
  have hcond : (0 : Int) ≤ i ∧ i.toNat < xs.length := by omega
  simp [pyListSet, hneg, hcond]

theorem buildObject_go_keys (ps : List (String × Payload)) :
    ∀ (es : List (String × Node)),
      (∀ x ∈ ps.map Prod.fst, ¬ x ∈ objectKeys es) →
      (ps.map Prod.fst).Nodup →
      objectKeys (ps.foldl (fun acc kp => objectSet acc kp.1 kp.2) es)
        = objectKeys es ++ ps.map Prod.fst := by
  induction ps with
  | nil => intro es _ _; simp
  | cons kp ps ih =>
      intro es hdisj hnd
      obtain ⟨k, p⟩ := kp
      simp only [List.map_cons, List.mem_cons, List.nodup_cons] at hdisj hnd
      have hk : ¬ k ∈ objectKeys es := hdisj k (Or.inl rfl)
      have hstep : objectKeys (objectSet es k p) = objectKeys es ++ [k] := by
        rw [objectSet, setEntry_of_not_mem es k _ hk]
        simp [objectKeys]
      have hdisj' : ∀ x ∈ ps.map Prod.fst, ¬ x ∈ objectKeys (objectSet es k p) := by
        intro x hx
        rw [hstep]
        simp only [List.mem_append, List.mem_singleton]
        rintro (hmem | hxk)
        · exact hdisj x (Or.inr hx) hmem
        · exact hnd.1 (hxk ▸ hx)
      have := ih (objectSet es k p) hdisj' hnd.2
      simp only [List.foldl_cons]
      rw [this, hstep, List.append_assoc]
      rfl

/-! ## The claims -/

/-- Claim C1: an `Object` built by `n` `set` calls with distinct keys yields
its keys in call order; setting an already-present key replaces its `Node`
without moving the key (the key sequence is unchanged), and setting a new
key appends it at the end of iteration order. -/
theorem c1_object_insertion_order :
    ∀ (ps : List (String × Payload)) (es : List (String × Node)) (k : String)
      (p : Payload),
      ((ps.map Prod.fst).Nodup →
        objectKeys (buildObject ps) = ps.map Prod.fst) ∧
      (k ∈ objectKeys es →
        objectKeys (objectSet es k p) = objectKeys es ∧
        lookupEntry (objectSet es k p) k = some (wrapPayload p)) ∧
      (¬ k ∈ objectKeys es →
        objectKeys (objectSet es k p) = objectKeys es ++ [k] ∧
        lookupEntry (objectSet es k p) k = some (wrapPayload p)) := by
  intro ps es k p
  refine ⟨?_, ?_, ?_⟩
  · intro hnd
    have hall : ∀ x ∈ ps.map Prod.fst, ¬ x ∈ objectKeys ([] : List (String × Node)) := by
      intro x _
      simp [objectKeys]
    have h := buildObject_go_keys ps [] hall hnd
    simpa [buildObject, objectKeys] using h
  · intro hmem
    exact ⟨setEntry_keys_of_mem es k _ hmem, lookupEntry_setEntry_self es k _⟩
  · intro hnot
    refine ⟨?_, lookupEntry_setEntry_self es k _⟩
    rw [objectSet, setEntry_of_not_mem es k _ hnot]
    simp [objectKeys]

/-- Witness for C1: a concrete two-key build yields the keys in call order. -/
theorem c1_witness :
    objectKeys (buildObject [("a", Payload.val (Value.int 1)),
      ("b", Payload.val (Value.int 2))]) = ["a", "b"] := by
  have h := (c1_object_insertion_order
    [("a", Payload.val (Value.int 1)), ("b", Payload.val (Value.int 2))]
    [] "a" (Payload.val Value.null)).1 (by decide)
  simpa using h

/-- Claim C2: a string-keyed read on a `Document` returns the node the first
top-level `Object` maps the key to; when `values` is empty, the first value
is not an `Object`, or the key is absent, it fails with `KeyNotFound`. -/
theorem c2_document_string_read :
    ∀ (d : Document) (k : String),
      (∀ n0 rest es nd, d.values = n0 :: rest → n0.value = Value.object es →
        lookupEntry es k = some nd → Document.getStr d k = Except.ok nd) ∧
      (d.values = [] →
        Document.getStr d k = Except.error Err.keyNotFound) ∧
      (∀ n0 rest, d.values = n0 :: rest → (∀ es, ¬ n0.value = Value.object es) →
        Document.getStr d k = Except.error Err.keyNotFound) ∧
      (∀ n0 rest es, d.values = n0 :: rest → n0.value = Value.object es →
        lookupEntry es k = none →
        Document.getStr d k = Except.error Err.keyNotFound) := by
  intro d k
  refine ⟨?_, ?_, ?_, ?_⟩
  · intro n0 rest es nd hv hval hlk
    simp [Document.getStr, hv, hval, objectGetItem, hlk]
  · intro hv
    simp [Document.getStr, hv]
  · intro n0 rest hv hno
    obtain ⟨t, a, v⟩ := n0
    cases v <;>
      first
      | exact absurd rfl (hno _)
      | simp [Document.getStr, hv, Node.value]
  · intro n0 rest es hv hval hlk
    simp [Document.getStr, hv, hval, objectGetItem, hlk]

/-- Witness for C2: reading key `a` from a document whose first value is the
object `{a: Int(1)}` returns that entry's node. -/
theorem c2_witness :
    Document.getStr (Document.mk []
      [Node.mk [] [] (Value.object [("a", Node.new (Value.int 1))])]) "a"
      = Except.ok (Node.new (Value.int 1)) :=
  (c2_document_string_read _ "a").1
    (Node.mk [] [] (Value.object [("a", Node.new (Value.int 1))])) []
    [("a", Node.new (Value.int 1))] (Node.new (Value.int 1))
    rfl rfl (by simp [lookupEntry])

/-- Claim C3: a string-keyed write on an empty `Document` first appends a
node wrapping an empty `Object` and sets the key on it, after which the key
reads back as the wrapped payload and position 0 holds that one-entry
`Object`; on a non-empty `Document` whose first value is an `Object` the key
is set on it; when the first value is not an `Object` the write fails with
`TypeMismatch`. -/
theorem c3_document_string_write :
    ∀ (d : Document) (k : String) (p : Payload),
      (d.values = [] →
        Document.setStr d k p = Except.ok (Document.mk d.prolog
          [Node.mk [] [] (Value.object [(k, wrapPayload p)])]) ∧
        Document.getStr (Document.mk d.prolog
          [Node.mk [] [] (Value.object [(k, wrapPayload p)])]) k
          = Except.ok (wrapPayload p) ∧
        Document.getInt (Document.mk d.prolog
          [Node.mk [] [] (Value.object [(k, wrapPayload p)])]) 0
          = Except.ok (Node.mk [] [] (Value.object [(k, wrapPayload p)]))) ∧
      (∀ n0 rest es, d.values = n0 :: rest → n0.value = Value.object es →
        Document.setStr d k p = Except.ok (Document.mk d.prolog
          (Node.mk n0.tags n0.annotations
            (Value.object (objectSet es k p)) :: rest))) ∧
      (∀ n0 rest, d.values = n0 :: rest → (∀ es, ¬ n0.value = Value.object es) →
        Document.setStr d k p = Except.error Err.typeMismatch) := by
  intro d k p
  refine ⟨?_, ?_, ?_⟩
  · intro hv
    refine ⟨?_, ?_, ?_⟩
    · simp [Document.setStr, hv, objectSet, setEntry]
    · simp [Document.getStr, Node.value, objectGetItem, lookupEntry]
    · simp [Document.getInt, pyListGet]
  · intro n0 rest es hv hval
    simp [Document.setStr, hv, hval]
  · intro n0 rest hv hno
    obtain ⟨t, a, v⟩ := n0
    cases v <;>
      first
      | exact absurd rfl (hno _)
      | simp [Document.setStr, hv, Node.value]

/-- Witness for C3: `document["a"] = 1` on an empty document auto-creates the
top-level object and stores the bare payload wrapped in a fresh node. -/
theorem c3_witness :
    Document.setStr (Document.mk [] []) "a" (Payload.val (Value.raw (Raw.pyInt 1)))
      = Except.ok (Document.mk []
          [Node.mk [] [] (Value.object
            [("a", Node.mk [] [] (Value.raw (Raw.pyInt 1)))])]) :=
  ((c3_document_string_write (Document.mk [] []) "a"
      (Payload.val (Value.raw (Raw.pyInt 1)))).1 rfl).1

theorem get?_append_left (xs ys : List Node) (m : Nat) (h : m < xs.length) :
    (xs ++ ys).get? m = xs.get? m := by
  induction xs generalizing m with
  | nil => simp at h
  | cons x xs ih =>
      cases m with
      | zero => rfl
      | succ m => exact ih m (by simpa using h)

/-- Counterexample to claim C4 as stated: on an `Array` of length 1, the
index `-1` lies outside `[0, 1)` yet `get(-1)` succeeds, because Python list
indexing resolves a negative index from the end. -/
theorem c4_counterexample :
    arrayGet [Node.new Value.null] (-1) = Except.ok (Node.new Value.null) ∧
    ¬ arrayGet [Node.new Value.null] (-1)
        = Except.error Err.indexOutOfRange := by
  have h : arrayGet [Node.new Value.null] (-1)
      = Except.ok (Node.new Value.null) := rfl
  exact ⟨h, by simp [h]⟩

/-- Claim C4 amended: `get(i)` and `set(i, v)` fail with `IndexOutOfRange`
exactly when `i` is outside `[-len, len)`; indices in `[-len, 0)` resolve
from the end, Python style; in particular `get(len)` always fails. -/
theorem c4_amended_bounds :
    ∀ (elems : List Node) (i : Int) (p : Payload),
      ((i < -(elems.length : Int) ∨ (elems.length : Int) ≤ i) →
        arrayGet elems i = Except.error Err.indexOutOfRange ∧
        arraySet elems i p = Except.error Err.indexOutOfRange) ∧
      ((-(elems.length : Int) ≤ i ∧ i < (elems.length : Int)) →
        (∃ nd, arrayGet elems i = Except.ok nd) ∧
        (∃ ys, arraySet elems i p = Except.ok ys)) ∧
      arrayGet elems (elems.length : Int) = Except.error Err.indexOutOfRange := by
  intro elems i p
  refine ⟨?_, ?_, ?_⟩
  · intro h
    exact ⟨pyListGet_oob elems i h, pyListSet_oob elems i _ h⟩
  · intro h
    exact ⟨pyListGet_inb elems i h, pyListSet_inb elems i _ h⟩
  · exact pyListGet_oob elems _ (Or.inr le_rfl)

/-- Witness for the amended C4: `get(1)` on a length-1 array fails. -/
theorem c4_witness :
    arrayGet [Node.new Value.null] 1 = Except.error Err.indexOutOfRange :=
  ((c4_amended_bounds [Node.new Value.null] 1 (Payload.val Value.null)).1
    (Or.inr (by simp))).1

/-- Counterexample to claim C5 as stated: `array.set(0, 5)` stores the bare
Python `5` unconverted, so its result differs from
`array.set(0, Node.new(Int(5)))`, which stores the `Int` variant. -/
theorem c5_counterexample :
    ¬ arraySet [Node.new Value.null] 0 (Payload.val (Value.raw (Raw.pyInt 5)))
      = arraySet [Node.new Value.null] 0
          (Payload.node (Node.new (Value.int 5))) := by
  intro h
  have h1 : arraySet [Node.new Value.null] 0 (Payload.val (Value.raw (Raw.pyInt 5)))
      = Except.ok [Node.mk [] [] (Value.raw (Raw.pyInt 5))] := rfl
  have h2 : arraySet [Node.new Value.null] 0
      (Payload.node (Node.new (Value.int 5)))
      = Except.ok [Node.mk [] [] (Value.int 5)] := rfl
  rw [h1, h2] at h
  simp at h

/-- Claim C5 amended: on an `Array` of length at least 1, `set(0, 5)` with
the bare payload `5` stores `Node(tags=[], annotations=[], value=5)` — the
raw scalar wrapped as-is, with no conversion to the `Int` variant — and so
produces the same contents as `set(0, Node(value=5))` with that node built
explicitly. -/
theorem c5_amended_autowrap :
    ∀ (elems : List Node), 1 ≤ elems.length →
      arraySet elems 0 (Payload.val (Value.raw (Raw.pyInt 5)))
        = Except.ok (elems.set 0 (Node.mk [] [] (Value.raw (Raw.pyInt 5)))) ∧
      arraySet elems 0 (Payload.node (Node.mk [] [] (Value.raw (Raw.pyInt 5))))
        = Except.ok (elems.set 0 (Node.mk [] [] (Value.raw (Raw.pyInt 5)))) := by
  intro elems h
  have h0 : pyListSet elems 0 (Node.mk [] [] (Value.raw (Raw.pyInt 5)))
      = Except.ok (elems.set (0 : Int).toNat (Node.mk [] [] (Value.raw (Raw.pyInt 5)))) :=
    pyListSet_nonneg elems 0 _ (by omega) (by omega)
  exact ⟨h0, h0⟩

/-- Witness for the amended C5 on a concrete length-1 array. -/
theorem c5_amended_witness :
    arraySet [Node.new Value.null] 0 (Payload.val (Value.raw (Raw.pyInt 5)))
      = Except.ok [Node.mk [] [] (Value.raw (Raw.pyInt 5))] :=
  (c5_amended_autowrap [Node.new Value.null] (by simp)).1

/-- Claim C6: a default-constructed `Node` has empty tags and annotations,
but its value is the Python `None` default of the `value` field, which is
not the `Null` dataclass instance the claim (and the field's own `'Value'`
annotation) call for. -/
theorem c6_default_node_value :
    Node.default.tags = [] ∧ Node.default.annotations = [] ∧
    Node.default.value = Value.raw Raw.pyNone ∧
    ¬ Node.default.value = Value.null := by
  refine ⟨rfl, rfl, rfl, ?_⟩
  intro h
  simp [Node.default, Node.value] at h

/-- Claim C7: the map-only delegation methods `get`, `keys`, `values_iter`,
`items` succeed exactly when the active variant is `Object`, `append`
exactly when it is `Array`; on any other variant each fails with
`UnsupportedOperation` naming the active variant. -/
theorem c7_node_delegation :
    ∀ (n : Node) (k : String) (d : Option Node) (p : Payload),
      ((∃ r, Node.get n k d = Except.ok r) ↔ ∃ es, n.value = Value.object es) ∧
      ((∃ r, Node.keys n = Except.ok r) ↔ ∃ es, n.value = Value.object es) ∧
      ((∃ r, Node.values_iter n = Except.ok r) ↔
        ∃ es, n.value = Value.object es) ∧
      ((∃ r, Node.items n = Except.ok r) ↔ ∃ es, n.value = Value.object es) ∧
      ((∃ r, Node.append n p = Except.ok r) ↔
        ∃ xs, n.value = Value.array xs) ∧
      ((∀ es, ¬ n.value = Value.object es) →
        Node.get n k d
          = Except.error (Err.unsupportedOperation (Value.typeName n.value)) ∧
        Node.keys n
          = Except.error (Err.unsupportedOperation (Value.typeName n.value)) ∧
        Node.values_iter n
          = Except.error (Err.unsupportedOperation (Value.typeName n.value)) ∧
        Node.items n
          = Except.error (Err.unsupportedOperation (Value.typeName n.value))) ∧
      ((∀ xs, ¬ n.value = Value.array xs) →
        Node.append n p
          = Except.error (Err.unsupportedOperation (Value.typeName n.value))) := by
  intro n k d p
  obtain ⟨t, a, v⟩ := n
  refine ⟨?_, ?_, ?_, ?_, ?_, ?_, ?_⟩
  · cases v <;> simp [Node.get, Node.value]
  · cases v <;> simp [Node.keys, Node.value]
  · cases v <;> simp [Node.values_iter, Node.value]
  · cases v <;> simp [Node.items, Node.value]
  · cases v <;> simp [Node.append, Node.value]
  · intro hno
    cases v
    case object es => exact absurd rfl (hno es)
    all_goals exact ⟨rfl, rfl, rfl, rfl⟩
  · intro hno
    cases v
    case array xs => exact absurd rfl (hno xs)
    all_goals rfl

/-- Witness for C7: calling `keys` on a node holding `Null` fails naming the
variant. -/
theorem c7_witness :
    Node.keys (Node.mk [] [] Value.null)
      = Except.error (Err.unsupportedOperation "Null") :=
  ((c7_node_delegation (Node.mk [] [] Value.null) "k" none
    (Payload.val Value.null)).2.2.2.2.2.1
    (fun es h => by simp [Node.value] at h)).2.1

/-- Claim C8: the membership test is true exactly when `values` is non-empty,
the first value is an `Object` and the key is present in it; it is a total
boolean function, false in every other case. -/
theorem c8_document_contains :
    ∀ (d : Document) (k : String),
      Document.containsKey d k = true ↔
        ∃ n0 rest es, d.values = n0 :: rest ∧ n0.value = Value.object es ∧
          objectContains es k = true := by
  intro d k
  obtain ⟨pr, vs⟩ := d
  cases vs with
  | nil => simp [Document.containsKey]
  | cons n0 rest =>
      obtain ⟨t, a, v⟩ := n0
      cases v <;> simp [Document.containsKey, Node.value]

/-- Witness for C8: the key `a` is found in a document whose first value is
the object `{a: null}`. -/
theorem c8_witness :
    Document.containsKey (Document.mk []
      [Node.mk [] [] (Value.object [("a", Node.new Value.null)])]) "a"
      = true :=
  (c8_document_contains _ "a").mpr
    ⟨Node.mk [] [] (Value.object [("a", Node.new Value.null)]), [],
      [("a", Node.new Value.null)], rfl, rfl, by simp [objectContains, lookupEntry]⟩

/-- Claim C9: every container write that receives an already-constructed
`Node` stores that node exactly as given — the `isinstance` test makes the
wrapper the identity on nodes — for `Array` set and append, `Object` set,
and integer-indexed `Document` set. -/
theorem c9_prebuilt_node_stored_exactly :
    ∀ (elems : List Node) (es : List (String × Node)) (d : Document) (i : Int)
      (k : String) (n : Node),
      wrapPayload (Payload.node n) = n ∧
      (0 ≤ i ∧ i < (elems.length : Int) →
        arraySet elems i (Payload.node n) = Except.ok (elems.set i.toNat n)) ∧
      arrayAppend elems (Payload.node n) = elems ++ [n] ∧
      lookupEntry (objectSet es k (Payload.node n)) k = some n ∧
      (0 ≤ i ∧ i < (d.values.length : Int) →
        Document.setInt d i (Payload.node n)
          = Except.ok (Document.mk d.prolog (d.values.set i.toNat n))) := by
  intro elems es d i k n
  refine ⟨rfl, ?_, rfl, ?_, ?_⟩
  · intro h
    exact pyListSet_nonneg elems i n h.1 h.2
  · exact lookupEntry_setEntry_self es k n
  · intro h
    have hs := pyListSet_nonneg d.values i n h.1 h.2
    simp [Document.setInt, wrapPayload, hs]

/-- Witness for C9: appending a pre-built node with a tag keeps the node
intact. -/
theorem c9_witness :
    arrayAppend [] (Payload.node (Node.mk [Tag.mk "t"] [] (Value.int 7)))
      = [Node.mk [Tag.mk "t"] [] (Value.int 7)] := by
  have h := c9_prebuilt_node_stored_exactly [] [] (Document.mk [] []) 0 "k"
    (Node.mk [Tag.mk "t"] [] (Value.int 7))
  simpa using h.2.2.1

/-- Claim C10: `Object.set` leaves every other key's node and the relative
order of the other keys unchanged; `Array.set` leaves every other index
unchanged; `Array.append` leaves every existing element at its position. -/
theorem c10_mutation_frame :
    ∀ (es : List (String × Node)) (k j : String) (p : Payload)
      (elems : List Node) (i : Int) (m : Nat),
      (¬ j = k → lookupEntry (objectSet es k p) j = lookupEntry es j) ∧
      ((objectKeys (objectSet es k p)).filter (fun x => x != k)
        = (objectKeys es).filter (fun x => x != k)) ∧
      (0 ≤ i ∧ i < (elems.length : Int) ∧ ¬ m = i.toNat →
        arraySet elems i p = Except.ok (elems.set i.toNat (wrapPayload p)) ∧
        (elems.set i.toNat (wrapPayload p)).get? m = elems.get? m) ∧
      (m < elems.length → (arrayAppend elems p).get? m = elems.get? m) := by
  intro es k j p elems i m
  refine ⟨?_, ?_, ?_, ?_⟩
  · intro h
    exact lookupEntry_setEntry_ne es k j _ h
  · exact keys_setEntry_filter es k _
  · intro h
    refine ⟨pyListSet_nonneg elems i _ h.1 h.2.1, ?_⟩
    exact List.get?_set_ne _ _ (fun q => h.2.2 q.symm)
  · intro h
    exact get?_append_left elems _ m h

/-- Witness for C10: replacing key `a` leaves the node at key `b` unchanged
in a concrete two-key object. -/
theorem c10_witness :
    lookupEntry (objectSet [("a", Node.new Value.null),
        ("b", Node.new (Value.int 2))] "a" (Payload.val (Value.int 9))) "b"
      = lookupEntry [("a", Node.new Value.null),
        ("b", Node.new (Value.int 2))] "b" :=
  (c10_mutation_frame [("a", Node.new Value.null),
    ("b", Node.new (Value.int 2))] "a" "b" (Payload.val (Value.int 9))
    [] 0 0).1 (by decide)

end Xcdn
